import Mathlib

/-!
Verification development for the Formula-Clanker retrieval pipeline.

Shallow embedding of the core pure logic of `src/chunk.py` and `src/app.py`:
the markdown chunk splitter, the incremental-cache skip decision, the
similarity-search ranking (`search_vectors`), the facet filter
(`filter_results`) and the context-expansion endpoint (`get_context`).

Strings are modelled as `List Char`; floating-point similarity scores are
modelled as rationals (only comparisons and orderings of scores matter to the
properties considered here); external collaborators (the embedding model,
`sklearn.cosine_similarity`, `datetime.fromisoformat`, the filesystem, MD5)
are modelled as parameters: the embedded functions take their results as
arguments, exactly at the boundary where the Python code calls them.
-/

/-- Python whitespace characters, as recognised by `str.strip()` /
`str.rstrip()` (space, tab, newline, carriage return, vertical tab,
form feed). -/
def isPySpace (c : Char) : Bool :=
  c = ' ' || c = '\t' || c = '\n' || c = '\r' || c = '\x0b' || c = '\x0c'

/-- Python `str.strip()`: drop whitespace from both ends. -/
def pyStrip (s : List Char) : List Char :=
  ((s.dropWhile isPySpace).reverse.dropWhile isPySpace).reverse

/-- Python `str.rstrip()`: drop whitespace from the right end. -/
def pyRstrip (s : List Char) : List Char :=
  (s.reverse.dropWhile isPySpace).reverse

/-- The two-character separator `"\n\n"` used by `chunk.py` when joining a
buffer with the next paragraph (`current_chunk + "\n\n" + para`). -/
def nl2 : List Char := ['\n', '\n']

/-- Python `content.split('\n\n')` (chunk.py line 192): split on each
non-overlapping occurrence of a blank line, scanning left to right; the empty
string splits to `[""]`. -/
def splitParas : List Char → List (List Char)
  | [] => [[]]
  | '\n' :: '\n' :: rest => [] :: splitParas rest
  | c :: rest =>
    match splitParas rest with
    | [] => [[c]]
    | p :: ps => (c :: p) :: ps

/-- A chunk record as built by `chunk_markdown_file` (chunk.py lines 201-205):
`{'chunk_index': ..., 'content': ..., 'char_count': ...}`. -/
structure Chunk where
  chunk_index : Nat
  content : List Char
  char_count : Nat
deriving DecidableEq, Repr

/-- Python `current_chunk[-overlap:]` guarded by
`len(current_chunk) > overlap` (chunk.py line 209).  Note that for
`overlap = 0` the Python slice `s[-0:]` is the whole string; the guard makes
the branch unreachable only when `len(s) ≤ overlap`. -/
def overlapTail (cur : List Char) (overlap : Nat) : List Char :=
  if cur.length > overlap then
    (if overlap = 0 then cur else cur.drop (cur.length - overlap))
  else cur

/-- Loop state of the paragraph-accumulation loop in `chunk_markdown_file`:
the chunks emitted so far, the next `chunk_index`, and the running buffer
`current_chunk`. -/
structure SplitState where
  chunks : List Chunk
  chunk_index : Nat
  current : List Char
deriving Repr

/-- One iteration of `for para in paragraphs` (chunk.py lines 195-212):
build `test_chunk`; if it exceeds `chunk_size` and the buffer is non-empty
(Python truthiness of `current_chunk`), close the current chunk (stripped
content, raw character count) and seed the next buffer with the overlap tail;
otherwise keep accumulating. -/
def splitStep (chunk_size overlap : Nat) (st : SplitState) (para : List Char) :
    SplitState :=
  let test := if st.current ≠ [] then st.current ++ nl2 ++ para else para
  if test.length > chunk_size ∧ st.current ≠ [] then
    { chunks := st.chunks ++
        [⟨st.chunk_index, pyStrip st.current, st.current.length⟩],
      chunk_index := st.chunk_index + 1,
      current := overlapTail st.current overlap ++ nl2 ++ para }
  else
    { st with current := test }

/-- The final-buffer emission of `chunk_markdown_file` (chunk.py lines
214-220): append the last buffer as a chunk iff it is non-empty after
`strip` (Python truthiness of `current_chunk.strip()`). -/
def finalizeChunks (st : SplitState) : List Chunk :=
  if pyStrip st.current ≠ [] then
    st.chunks ++ [⟨st.chunk_index, pyStrip st.current, st.current.length⟩]
  else
    st.chunks

/-- `chunk_markdown_file` (chunk.py lines 169-222), applied to the file's
already-read text (the `open`/`read` call and its exception handler are the
I/O boundary and sit outside the model): split on blank lines, greedily
accumulate paragraphs, and emit the final non-empty (after `strip`) buffer. -/
def chunk_markdown_file (content : List Char) (chunk_size overlap : Nat) :
    List Chunk :=
  finalizeChunks
    ((splitParas content).foldl (splitStep chunk_size overlap) ⟨[], 0, []⟩)

/-- Outcome of the per-file branch of `process_markdown_files`
(chunk.py lines 261-276) for one markdown file. -/
inductive FileAction where
  | skippedHashError
  | skippedUnchanged
  | processed (chunks : List Chunk)
deriving DecidableEq, Repr

/-- The per-file decision of `process_markdown_files` (chunk.py lines
261-276): `current_hash = get_file_hash(md_file)` is passed in as
`hash` (`none` models `get_file_hash` returning `None` after an I/O error);
`cached` is `cache.get(file_key)`.  If the hash is `None` the file is skipped
(`continue`); if the cache holds the same digest it is skipped as unchanged;
otherwise it is chunked with the default parameters
(`chunk_markdown_file(md_file)`, i.e. `chunk_size=500, overlap=50`). -/
def process_markdown_step (hash : Option (List Char))
    (cached : Option (List Char)) (fileContent : List Char) : FileAction :=
  match hash with
  | none => .skippedHashError
  | some h =>
    if cached = some h then .skippedUnchanged
    else .processed (chunk_markdown_file fileContent 500 50)

/-- The `timestamp` value carried in a metadata record of `app.py`: either a
raw string (to be parsed with `datetime.fromisoformat` after the
`' UTC' → '+00:00'` replacement) or an already-parsed datetime object, of
which only the `year` attribute is ever read. -/
inductive TsVal where
  | tstr (s : List Char)
  | tdt (year : Int)
deriving DecidableEq, Repr

/-- The `discord_info` sub-dictionary of a metadata record; each Discord id is
kept as its `str()` image.  `channel_id = none` models a missing key, for
which `app.py` substitutes the literal string `"Unknown"`. -/
structure DiscordInfo where
  channel_id : Option (List Char) := none
  guild_id : Option (List Char) := none
  message_id : Option (List Char) := none
deriving DecidableEq, Repr

/-- A `message_metadata` record of the vector database, restricted to the
keys read by `search_vectors`, `filter_results` and `get_context`:
`timestamp`, `discord_info`, `file_path`, `chunk_id` and
`original_message.content` (each `Option` models presence of the key). -/
structure Metadata where
  timestamp : Option TsVal := none
  discord_info : Option DiscordInfo := none
  file_path : Option (List Char) := none
  chunk_id : Option (List Char) := none
  original_message_content : List Char := []
deriving DecidableEq, Inhabited, Repr

/-- A search-result dictionary as built by `search_vectors`
(app.py lines 75-79): `{'score': ..., 'metadata': ..., 'content': ...}`.
Scores are modelled as rationals. -/
structure Result where
  score : ℚ
  metadata : Metadata
  content : List Char
deriving DecidableEq, Repr

/-- Insert index `i` into an already-sorted index list, after every index
whose similarity is `≤` the similarity of `i`.  Python `np.argsort` sorts
ascending; its default introsort leaves the order of equal keys unspecified,
so we model the most order-preserving reading (a stable ascending sort:
equal keys stay in increasing index order). -/
def insertIdx (xs : List ℚ) (i : Nat) : List Nat → List Nat
  | [] => [i]
  | j :: rest =>
    if xs.getD j 0 ≤ xs.getD i 0 then j :: insertIdx xs i rest
    else i :: j :: rest

/-- `np.argsort(similarities)` (app.py line 69), modelled as a stable
ascending sort of the indices `0, …, n-1` by similarity. -/
def argsort (xs : List ℚ) : List Nat :=
  (List.range xs.length).foldl (fun acc i => insertIdx xs i acc) []

/-- Python list slicing `l[:k]` for an `int` bound `k`: the first `k`
elements for `k ≥ 0`, and all but the last `-k` elements for `k < 0`. -/
def pyTake (k : Int) (l : List α) : List α :=
  if 0 ≤ k then l.take k.toNat else l.take (l.length - (-k).toNat)

/-- `top_indices = np.argsort(similarities)[::-1][:top_k]`
(app.py line 69). -/
def top_indices (sims : List ℚ) (top_k : Int) : List Nat :=
  pyTake top_k (argsort sims).reverse

/-- One result dictionary appended by `search_vectors`
(app.py lines 75-79) for a selected index. -/
def mkResult (sims : List ℚ) (md : List Metadata) (idx : Nat) : Result :=
  { score := sims.getD idx 0,
    metadata := md.getD idx default,
    content := (md.getD idx default).original_message_content }

/-- `search_vectors` (app.py lines 39-84), taken at the point where the
external collaborators have already run: `sims` is the row
`cosine_similarity(query_embedding, embeddings)[0]` and `md` is
`vector_database['message_metadata']` (a parallel array of the same length).
If there are no embeddings the function returns `[]`; otherwise it walks the
reversed argsort truncated to `top_k` and keeps the entries with strictly
positive similarity. -/
def search_vectors (sims : List ℚ) (md : List Metadata) (top_k : Int) :
    List Result :=
  if sims.length = 0 then []
  else
    ((top_indices sims top_k).filter
      (fun idx => decide (0 < sims.getD idx 0))).map (mkResult sims md)

/-- A JSON value bound to the `top_k` key of a search request (app.py lines
240-247): `null`, a number (restricted to integers), or a string. -/
inductive TopKVal where
  | null
  | jint (n : Int)
  | jstr (s : List Char)
deriving DecidableEq, Repr

/-- Python `int(s)` on a string, as used on `top_k_raw`: optional surrounding
whitespace, an optional sign, then at least one digit (digit-group
underscores are not modelled). `none` models the `ValueError` branch. -/
def pyIntOfString (s : List Char) : Option Int :=
  let t := pyStrip s
  let core : Option (List Char × Bool) :=
    match t with
    | '-' :: rest => some (rest, true)
    | '+' :: rest => some (rest, false)
    | rest => some (rest, false)
  match core with
  | some (ds, neg) =>
    if ds ≠ [] ∧ ds.all (fun c => c.isDigit) then
      let v : Int := ds.foldl (fun acc c => acc * 10 + (c.toNat - 48)) 0
      some (if neg then -v else v)
    else none
  | none => none

/-- The `top_k` sanitisation of the `/search` endpoint (app.py lines
240-247): a missing key defaults to 10; a value equal to `None`, `'null'`,
`'None'` or `''` defaults to 10; otherwise `int(...)` is attempted and a
conversion failure defaults to 10.  Note there is no check for zero or
negative integers. -/
def parse_top_k (raw : Option TopKVal) : Int :=
  match raw with
  | none => 10
  | some v =>
    if v = .null ∨ v = .jstr ('n' :: 'u' :: 'l' :: 'l' :: [])
        ∨ v = .jstr ('N' :: 'o' :: 'n' :: 'e' :: []) ∨ v = .jstr [] then 10
    else
      match v with
      | .jint n => n
      | .jstr s => (pyIntOfString s).getD 10
      | .null => 10

/-- Python `s.replace(' UTC', '+00:00')` (app.py lines 102 and 170): replace
every non-overlapping occurrence, scanning left to right. -/
def replaceUTC : List Char → List Char
  | ' ' :: 'U' :: 'T' :: 'C' :: rest =>
    '+' :: '0' :: '0' :: ':' :: '0' :: '0' :: replaceUTC rest
  | c :: rest => c :: replaceUTC rest
  | [] => []

/-- `_get_year_from_result` (app.py lines 164-175), parameterised by the
external parser `parse` standing for
`fun s => (datetime.fromisoformat s).year` (`none` models a raised
exception).  A missing timestamp gives `ts = None`, whose `.year` raises,
caught by the bare `except` → `None`; a string is parsed after the UTC
replacement; a datetime object yields its year directly. -/
def _get_year_from_result (parse : List Char → Option Int) (r : Result) :
    Option Int :=
  match r.metadata.timestamp with
  | none => none
  | some (.tstr s) => parse (replaceUTC s)
  | some (.tdt y) => some y

/-- `_get_channel_from_result` (app.py lines 177-185): when `discord_info`
is present, return `str(discord_info.get('channel_id', 'Unknown'))`;
otherwise `None`. -/
def _get_channel_from_result (r : Result) : Option (List Char) :=
  match r.metadata.discord_info with
  | some d => some (d.channel_id.getD
      ('U' :: 'n' :: 'k' :: 'n' :: 'o' :: 'w' :: 'n' :: []))
  | none => none

/-- The active facets of a `/search` request after the endpoint-side
conversions (app.py lines 145-156): `year = some y` models a truthy raw
value successfully converted by `int(...)`; `channel = some c` models a
truthy raw value imaged through `str(...)`; `source_type = some s` models a
truthy string.  `none` models an absent key or a falsy value, for which the
corresponding filter stage is skipped. -/
structure Filters where
  year : Option Int := none
  channel : Option (List Char) := none
  source_type : Option (List Char) := none
deriving DecidableEq, Repr

/-- The string constant `'discord'`. -/
def discordStr : List Char := 'd' :: 'i' :: 's' :: 'c' :: 'o' :: 'r' :: 'd' :: []

/-- The string constant `'markdown'`. -/
def markdownStr : List Char :=
  'm' :: 'a' :: 'r' :: 'k' :: 'd' :: 'o' :: 'w' :: 'n' :: []

/-- The year stage of `filter_results` (app.py lines 145-147): with an
active year facet, keep the results whose extracted year equals it. -/
def filter_by_year (parse : List Char → Option Int) (yo : Option Int)
    (l : List Result) : List Result :=
  match yo with
  | none => l
  | some y =>
    l.filter (fun r => decide (_get_year_from_result parse r = some y))

/-- The channel stage of `filter_results` (app.py lines 150-152): with an
active channel facet, keep the results whose extracted channel equals it
(`None == channel` is false in Python, so a result without `discord_info`
never passes). -/
def filter_by_channel (co : Option (List Char)) (l : List Result) :
    List Result :=
  match co with
  | none => l
  | some c => l.filter (fun r => decide (_get_channel_from_result r = some c))

/-- The source-type stage of `filter_results` (app.py lines 155-160):
`'discord'` keeps records with `discord_info`, `'markdown'` keeps records
with `file_path`, any other active value filters nothing. -/
def filter_by_source_type (so : Option (List Char)) (l : List Result) :
    List Result :=
  match so with
  | none => l
  | some st =>
    if st = discordStr then l.filter (fun r => r.metadata.discord_info.isSome)
    else if st = markdownStr then
      l.filter (fun r => r.metadata.file_path.isSome)
    else l

/-- `filter_results` (app.py lines 131-162): three sequential list
comprehensions over the running list, one per active facet — calendar year
of the extracted timestamp, extracted channel id, and source type. -/
def filter_results (parse : List Char → Option Int) (results : List Result)
    (filters : Filters) : List Result :=
  filter_by_source_type filters.source_type
    (filter_by_channel filters.channel
      (filter_by_year parse filters.year results))

/-- The per-result conjunction of the active facet predicates of
`filter_results`: an inactive facet constrains nothing. -/
def facetOk (parse : List Char → Option Int) (filters : Filters)
    (r : Result) : Bool :=
  (match filters.year with
   | none => true
   | some y => decide (_get_year_from_result parse r = some y)) &&
  (match filters.channel with
   | none => true
   | some c => decide (_get_channel_from_result r = some c)) &&
  (match filters.source_type with
   | none => true
   | some st =>
     if st = discordStr then r.metadata.discord_info.isSome
     else if st = markdownStr then r.metadata.file_path.isSome
     else true)

/-- One line record returned by the `/context` endpoint (app.py lines
381-385): absolute 1-based line number, right-stripped content, and the
target flag. -/
structure CtxLine where
  line_number : Nat
  content : List Char
  is_target : Bool
deriving DecidableEq, Repr

/-- The response of the `/context` endpoint (app.py lines 316-398),
restricted to its data content: the 400 invalid-locator rejection, the two
404 outcomes, the direct chunk body, or a window of context lines. -/
inductive CtxResponse where
  | invalidLocator
  | chunkNotFound
  | fileNotFound
  | chunkBody (content : List Char) (file_path : List Char)
  | context (ls : List CtxLine)
deriving DecidableEq, Repr

/-- `get_context` (app.py lines 316-398), taken after request parsing: when
`chunk_id` is truthy, look the chunk up in the metadata array and return its
stored content (404 when absent); otherwise require a truthy `source_file`
and a positive `line_number` (else the 400 rejection), and read the window
`[max(0, ln-cl-1), min(len, ln+cl))` of the file's lines (passed in as
`file`; `none` models a missing file → 404), tagging each with its 1-based
number and the `is_target` flag. -/
def get_context (db : List Metadata) (chunk_id : List Char)
    (source_file : List Char) (line_number context_lines : Int)
    (file : Option (List (List Char))) : CtxResponse :=
  if chunk_id ≠ [] then
    match db.find? (fun m => decide (m.chunk_id = some chunk_id)) with
    | some m => .chunkBody m.original_message_content (m.file_path.getD [])
    | none => .chunkNotFound
  else if source_file = [] ∨ line_number ≤ 0 then .invalidLocator
  else
    match file with
    | none => .fileNotFound
    | some lines =>
      let s := (max 0 (line_number - context_lines - 1)).toNat
      let e := min (lines.length : Int) (line_number + context_lines)
      let cnt := (e - (s : Int)).toNat
      .context ((List.range cnt).map (fun k =>
        { line_number := s + k + 1,
          content := pyRstrip (lines.getD (s + k) []),
          is_target := decide ((s + k + 1 : Int) = line_number) }))

/-- Extract the context lines from a `/context` response (empty for every
non-window response). -/
def ctxLinesOf : CtxResponse → List CtxLine
  | .context ls => ls
  | _ => []

/-- The strict lexicographic order in which the modelled `argsort` emits
indices: smaller similarity first, equal similarities in increasing index
order. -/
def lexLt (xs : List ℚ) (i j : Nat) : Prop :=
  xs.getD i 0 < xs.getD j 0 ∨ (xs.getD i 0 = xs.getD j 0 ∧ i < j)

/-- Two tied similarity scores: a concrete input exercising the tie-breaking
of `search_vectors`. -/
def tieSims : List ℚ := [2, 2]

/-- Metadata array for the tied-score input, with distinguishable contents. -/
def tieMd : List Metadata :=
  [{ original_message_content := ['a'] },
   { original_message_content := ['b'] }]

/-- Two six-character paragraphs separated by a blank line. -/
def twoParaText : List Char :=
  ['a', 'a', 'a', 'a', 'a', 'a', '\n', '\n', 'b', 'b', 'b', 'b', 'b', 'b']

/-- A whitespace-only first paragraph followed by an oversized paragraph:
the splitter closes the first buffer while it holds only whitespace. -/
def wsChunkText : List Char := ' ' :: '\n' :: '\n' :: List.replicate 501 'X'

/-- A small non-empty file body. -/
def helloText : List Char := ['h', 'e', 'l', 'l', 'o']

theorem mem_insertIdx (xs : List ℚ) (i : Nat) (l : List Nat) (k : Nat) :
    k ∈ insertIdx xs i l ↔ k = i ∨ k ∈ l := by
  induction l with
  | nil => simp [insertIdx]
  | cons j rest ih =>
    simp only [insertIdx]
    split
    · simp only [List.mem_cons, ih]
      tauto
    · simp only [List.mem_cons]

theorem pairwise_insertIdx (xs : List ℚ) (i : Nat) (l : List Nat)
    (hp : l.Pairwise (lexLt xs)) (hb : ∀ j ∈ l, j < i) :
    (insertIdx xs i l).Pairwise (lexLt xs) := by
  induction l with
  | nil => simp [insertIdx]
  | cons j rest ih =>
    rcases List.pairwise_cons.mp hp with ⟨hj, hrest⟩
    simp only [insertIdx]
    split
    · rename_i hle
      refine List.pairwise_cons.mpr
        ⟨?_, ih hrest (fun k hk => hb k (List.mem_cons_of_mem _ hk))⟩
      intro k hk
      rcases (mem_insertIdx xs i rest k).mp hk with rfl | hkr
      · rcases lt_or_eq_of_le hle with h | h
        · exact Or.inl h
        · exact Or.inr ⟨h, hb j (List.mem_cons_self _ _)⟩
      · exact hj k hkr
    · rename_i hgt
      have hij : xs.getD i 0 < xs.getD j 0 := lt_of_not_le hgt
      refine List.pairwise_cons.mpr ⟨?_, hp⟩
      intro k hk
      rcases List.mem_cons.mp hk with rfl | hkr
      · exact Or.inl hij
      · rcases hj k hkr with h | ⟨heq, _⟩
        · exact Or.inl (hij.trans h)
        · exact Or.inl (heq ▸ hij)

theorem argsortAux_invariant (xs : List ℚ) :
    ∀ (c m : Nat) (l : List Nat), l.Pairwise (lexLt xs) →
      (∀ j ∈ l, j < m) →
      ((List.range' m c).foldl (fun acc i => insertIdx xs i acc)
        l).Pairwise (lexLt xs) ∧
      ∀ j ∈ (List.range' m c).foldl (fun acc i => insertIdx xs i acc) l,
        j < m + c := by
  intro c
  induction c with
  | zero =>
    intro m l hp hb
    exact ⟨hp, fun j hj => by simpa using hb j hj⟩
  | succ n ih =>
    intro m l hp hb
    rw [List.range'_succ]
    simp only [List.foldl_cons]
    have h1 := pairwise_insertIdx xs m l hp hb
    have h2 : ∀ j ∈ insertIdx xs m l, j < m + 1 := by
      intro j hj
      rcases (mem_insertIdx xs m l j).mp hj with rfl | hjl
      · omega
      · exact Nat.lt_succ_of_lt (hb j hjl)
    have h3 := ih (m + 1) (insertIdx xs m l) h1 h2
    exact ⟨h3.1, fun j hj => by have := h3.2 j hj; omega⟩

theorem argsort_pairwise (xs : List ℚ) :
    (argsort xs).Pairwise (lexLt xs) := by
  have h := argsortAux_invariant xs xs.length 0 [] List.Pairwise.nil
    (by simp)
  rw [argsort, List.range_eq_range']
  exact h.1

theorem pyTake_sublist (k : Int) (l : List α) : (pyTake k l).Sublist l := by
  unfold pyTake
  split <;> exact List.take_sublist _ _

theorem length_pyTake_le_toNat (k : Int) (hk : 0 ≤ k) (l : List α) :
    (pyTake k l).length ≤ k.toNat := by
  unfold pyTake
  rw [if_pos hk]
  simp [List.length_take]

theorem top_indices_pairwise (sims : List ℚ) (tk : Int) :
    (top_indices sims tk).Pairwise (fun i j => lexLt sims j i) := by
  have h1 : (argsort sims).reverse.Pairwise (fun i j => lexLt sims j i) := by
    rw [List.pairwise_reverse]
    exact argsort_pairwise sims
  exact h1.sublist (pyTake_sublist tk _)

theorem splitStep_indices (cs ov : Nat) (st : SplitState) (para : List Char)
    (h : st.chunks.map Chunk.chunk_index = List.range st.chunk_index) :
    (splitStep cs ov st para).chunks.map Chunk.chunk_index =
      List.range (splitStep cs ov st para).chunk_index := by
  simp only [splitStep]
  split <;> split
  · simp [h, List.range_succ]
  · simpa using h
  · simp [h, List.range_succ]
  · simpa using h

theorem splitFold_indices (cs ov : Nat) (ps : List (List Char)) :
    ∀ st : SplitState,
      st.chunks.map Chunk.chunk_index = List.range st.chunk_index →
      ((ps.foldl (splitStep cs ov) st).chunks.map Chunk.chunk_index =
        List.range (ps.foldl (splitStep cs ov) st).chunk_index) := by
  induction ps with
  | nil => intro st h; simpa using h
  | cons p rest ih =>
    intro st h
    exact ih _ (splitStep_indices cs ov st p h)

theorem chunk_markdown_indices (t : List Char) (cs ov : Nat) :
    (chunk_markdown_file t cs ov).map Chunk.chunk_index =
      List.range (chunk_markdown_file t cs ov).length := by
  unfold chunk_markdown_file
  have h := splitFold_indices cs ov (splitParas t) ⟨[], 0, []⟩ (by simp)
  set st := (splitParas t).foldl (splitStep cs ov) ⟨[], 0, []⟩ with hst
  have hlen : st.chunks.length = st.chunk_index := by
    have h2 := congrArg List.length h
    simpa using h2
  unfold finalizeChunks
  split
  · simp [h, hlen, List.range_succ]
  · simp [h, hlen]

theorem filter_by_year_sublist (p : List Char → Option Int)
    (yo : Option Int) (l : List Result) :
    (filter_by_year p yo l).Sublist l := by
  cases yo with
  | none => exact List.Sublist.refl l
  | some y => exact List.filter_sublist l

theorem filter_by_channel_sublist (co : Option (List Char))
    (l : List Result) : (filter_by_channel co l).Sublist l := by
  cases co with
  | none => exact List.Sublist.refl l
  | some c => exact List.filter_sublist l

theorem filter_by_source_type_sublist (so : Option (List Char))
    (l : List Result) : (filter_by_source_type so l).Sublist l := by
  cases so with
  | none => exact List.Sublist.refl l
  | some st =>
    simp only [filter_by_source_type]
    split
    · exact List.filter_sublist l
    · split
      · exact List.filter_sublist l
      · exact List.Sublist.refl l

theorem mem_filter_by_year {p : List Char → Option Int} {yo : Option Int}
    {l : List Result} {r : Result} (hr : r ∈ filter_by_year p yo l) :
    r ∈ l ∧ ∀ y, yo = some y → _get_year_from_result p r = some y := by
  cases yo with
  | none => exact ⟨hr, by simp⟩
  | some y =>
    rw [filter_by_year] at hr
    have h := List.mem_filter.mp hr
    refine ⟨h.1, ?_⟩
    intro y2 hy2
    injection hy2 with hy2
    subst hy2
    exact of_decide_eq_true h.2

theorem mem_filter_by_channel {co : Option (List Char)} {l : List Result}
    {r : Result} (hr : r ∈ filter_by_channel co l) :
    r ∈ l ∧ ∀ c, co = some c → _get_channel_from_result r = some c := by
  cases co with
  | none => exact ⟨hr, by simp⟩
  | some c =>
    rw [filter_by_channel] at hr
    have h := List.mem_filter.mp hr
    refine ⟨h.1, ?_⟩
    intro c2 hc2
    injection hc2 with hc2
    subst hc2
    exact of_decide_eq_true h.2

theorem mem_filter_by_source_type {so : Option (List Char)}
    {l : List Result} {r : Result} (hr : r ∈ filter_by_source_type so l) :
    r ∈ l ∧ ∀ st, so = some st →
      (if st = discordStr then r.metadata.discord_info.isSome
       else if st = markdownStr then r.metadata.file_path.isSome
       else true) = true := by
  cases so with
  | none => exact ⟨hr, by simp⟩
  | some st =>
    rw [filter_by_source_type] at hr
    by_cases h1 : st = discordStr
    · rw [if_pos h1] at hr
      have h := List.mem_filter.mp hr
      refine ⟨h.1, ?_⟩
      intro st2 hst2
      injection hst2 with hst2
      subst hst2
      rw [if_pos h1]
      exact h.2
    · rw [if_neg h1] at hr
      by_cases h2 : st = markdownStr
      · rw [if_pos h2] at hr
        have h := List.mem_filter.mp hr
        refine ⟨h.1, ?_⟩
        intro st2 hst2
        injection hst2 with hst2
        subst hst2
        rw [if_neg h1, if_pos h2]
        exact h.2
      · rw [if_neg h2] at hr
        refine ⟨hr, ?_⟩
        intro st2 hst2
        injection hst2 with hst2
        subst hst2
        rw [if_neg h1, if_neg h2]

set_option maxRecDepth 10000

/-- Counterexample for claim C6: a single 600-space paragraph — longer than
`chunk_size = 500` — is not emitted whole as one chunk: the final buffer
strips to empty (Python falsiness of `current_chunk.strip()` at chunk.py
line 215) and the splitter yields zero chunks. -/
theorem oversized_whitespace_paragraph_cex :
    (List.replicate 600 ' ').length > 500 ∧
    splitParas (List.replicate 600 ' ') = [List.replicate 600 ' '] ∧
    chunk_markdown_file (List.replicate 600 ' ') 500 50 = [] := by
  decide

/-- Claim C6 (amended): splitting the empty text produces zero chunks, and
a single-paragraph text (no blank-line separator) that survives `strip` is
emitted whole as exactly one chunk — stripped content, raw character count
— for every `chunk_size` and `overlap`, even when it exceeds `chunk_size`;
in particular the single 600-'A' paragraph at `500`/`50` yields exactly one
chunk with `char_count = 600`.  (A whitespace-only oversized paragraph
instead strips to empty and yields zero chunks.) -/
theorem chunk_split_edge_cases (t : List Char) (cs ov : Nat)
    (h1 : splitParas t = [t]) (h2 : pyStrip t ≠ []) :
    chunk_markdown_file [] 500 50 = [] ∧
    chunk_markdown_file t cs ov = [⟨0, pyStrip t, t.length⟩] ∧
    chunk_markdown_file (List.replicate 600 'A') 500 50 =
      [⟨0, List.replicate 600 'A', 600⟩] := by
  refine ⟨by decide, ?_, by decide⟩
  unfold chunk_markdown_file
  rw [h1]
  simp only [List.foldl_cons, List.foldl_nil, splitStep]
  rw [if_neg (by simp)]
  simp only [ne_eq, not_true_eq_false, if_false, finalizeChunks]
  rw [if_pos h2]
  rfl

/-- Witness for `chunk_split_edge_cases` at the 600-'A' paragraph with
`chunk_size = 500`, `overlap = 50`. -/
theorem chunk_split_edge_cases_witness :
    splitParas (List.replicate 600 'A') = [List.replicate 600 'A'] ∧
    pyStrip (List.replicate 600 'A') ≠ [] ∧
    (chunk_markdown_file [] 500 50 = [] ∧
     chunk_markdown_file (List.replicate 600 'A') 500 50 =
       [⟨0, pyStrip (List.replicate 600 'A'),
         (List.replicate 600 'A').length⟩] ∧
     chunk_markdown_file (List.replicate 600 'A') 500 50 =
       [⟨0, List.replicate 600 'A', 600⟩]) :=
  ⟨by decide, by decide,
   chunk_split_edge_cases (List.replicate 600 'A') 500 50
     (by decide) (by decide)⟩

/-- Counterexample for claim C7: on a whitespace-only first paragraph
followed by an oversized paragraph, the splitter (at the default
parameters `500`/`50`) emits a chunk whose `content` is empty — the
non-empty-content half of the claim is false. -/
theorem chunk_empty_content_cex :
    (chunk_markdown_file wsChunkText 500 50).any
      (fun c => c.content.isEmpty) = true ∧
    (chunk_markdown_file wsChunkText 500 50).map Chunk.content =
      [[], List.replicate 501 'X'] := by
  decide

/-- Claim C7 (amended): for every input text and parameters, the
`chunk_index` values of the produced chunks are contiguous starting at 0
(each chunk's index is its position in the output); the content of a chunk
closed from a whitespace-only buffer may however be empty. -/
theorem chunk_indices_contiguous (t : List Char) (cs ov : Nat) :
    (chunk_markdown_file t cs ov).map Chunk.chunk_index =
      List.range (chunk_markdown_file t cs ov).length :=
  chunk_markdown_indices t cs ov

/-- Counterexample for claim C4: a call of the chunk splitter with
`overlap = chunk_size = 10` is not rejected — it proceeds and produces two
chunks. -/
theorem overlap_ge_size_proceeds_cex :
    chunk_markdown_file twoParaText 10 10 =
      [⟨0, ['a', 'a', 'a', 'a', 'a', 'a'], 6⟩,
       ⟨1, ['a', 'a', 'a', 'a', 'a', 'a', '\n', '\n',
            'b', 'b', 'b', 'b', 'b', 'b'], 14⟩] := by
  decide

/-- Claim C4 (amended): the chunk splitter performs no validation of
`overlap` against `chunk_size`; a call with `overlap ≥ chunk_size` is not
rejected but proceeds through the normal greedy loop, producing its usual
chunk sequence (with contiguous indices). -/
theorem chunk_overlap_ignored (t : List Char) (cs ov : Nat)
    (_h : cs ≤ ov) :
    (chunk_markdown_file t cs ov).map Chunk.chunk_index =
      List.range (chunk_markdown_file t cs ov).length :=
  chunk_markdown_indices t cs ov

/-- Witness for `chunk_overlap_ignored` at `chunk_size = overlap = 10`. -/
theorem chunk_overlap_ignored_witness :
    10 ≤ 10 ∧
    (chunk_markdown_file twoParaText 10 10).map Chunk.chunk_index =
      List.range (chunk_markdown_file twoParaText 10 10).length :=
  ⟨by decide, chunk_overlap_ignored twoParaText 10 10 (by decide)⟩

/-- Counterexample for claim C5: when hashing fails
(`get_file_hash` returns `None`), `process_markdown_files` skips the file
(`continue`) instead of chunking it, although its content would have
produced a chunk. -/
theorem hash_failure_not_chunked_cex :
    process_markdown_step none none helloText = .skippedHashError ∧
    process_markdown_step none none helloText ≠
      .processed (chunk_markdown_file helloText 500 50) ∧
    chunk_markdown_file helloText 500 50 ≠ [] := by
  decide

/-- Claim C5 (amended): a source file whose hash cannot be computed is
skipped entirely by the ingestion pass — it is not chunked — regardless of
the cache state and of its content. -/
theorem hash_failure_skips (cached : Option (List Char))
    (content : List Char) :
    process_markdown_step none cached content = .skippedHashError := rfl

/-- Counterexample for claim C2: on two tied similarity scores, the ranking
returns index 1 before index 0 — the reverse of the original index order the
claim requires (the ascending argsort is reversed wholesale, flipping the
order of equal scores). -/
theorem search_tie_reversed_cex :
    (search_vectors tieSims tieMd 10).map Result.content = [['b'], ['a']] ∧
    (search_vectors tieSims tieMd 10).map Result.content ≠
      [['a'], ['b']] := by
  decide

/-- Claim C2 (amended): ties are broken by decreasing original index — the
selected index sequence is strictly decreasing on runs of equal scores
(under the stable-ascending-sort model of `np.argsort`, whose reversal
yields equal scores in reverse index order) — so the ranking is still a
deterministic function of the similarity array and `top_k`. -/
theorem top_indices_tie_order (sims : List ℚ) (tk : Int) :
    (top_indices sims tk).Pairwise (fun i j =>
      sims.getD j 0 < sims.getD i 0 ∨
      (sims.getD j 0 = sims.getD i 0 ∧ j < i)) :=
  top_indices_pairwise sims tk

/-- Claim C3 (code bug): the `/search` endpoint accepts a caller-supplied
`top_k` of 0 or a negative value unchanged — there is no fallback to the
default 10 — and `search_vectors` then returns an empty (for 0) or
truncated (for negative) result set over three positive-similarity
entries, where the default would return all three. -/
theorem top_k_zero_not_defaulted :
    parse_top_k (some (.jint 0)) = 0 ∧
    search_vectors [3, 2, 1] [] 0 = [] ∧
    parse_top_k (some (.jint (-1))) = -1 ∧
    (search_vectors [3, 2, 1] [] (-1)).length = 2 ∧
    (search_vectors [3, 2, 1] [] 10).length = 3 := by
  decide

/-- Claim C1: for every similarity array and every `top_k > 0`,
`search_vectors` returns at most `top_k` results, the returned scores are
non-increasing, and every returned result has a strictly positive score. -/
theorem search_vectors_ranked (sims : List ℚ) (md : List Metadata)
    (tk : Int) (h : 0 < tk) :
    ((search_vectors sims md tk).length : Int) ≤ tk ∧
    ((search_vectors sims md tk).map Result.score).Pairwise
      (fun a b => b ≤ a) ∧
    ∀ r ∈ search_vectors sims md tk, 0 < r.score := by
  unfold search_vectors
  split
  · exact ⟨by simpa using h.le, by simp, by simp⟩
  · refine ⟨?_, ?_, ?_⟩
    · have h1 : ((top_indices sims tk).filter
          (fun idx => decide (0 < sims.getD idx 0))).length ≤
          (top_indices sims tk).length := List.length_filter_le _ _
      have h2 : (top_indices sims tk).length ≤ tk.toNat :=
        length_pyTake_le_toNat tk h.le _
      have h4 : ((((top_indices sims tk).filter
          (fun idx => decide (0 < sims.getD idx 0))).map
          (mkResult sims md)).length : Int) ≤ (tk.toNat : Int) := by
        rw [List.length_map]
        exact_mod_cast le_trans h1 h2
      rwa [Int.toNat_of_nonneg h.le] at h4
    · rw [List.map_map]
      refine List.pairwise_map.mpr ?_
      have hp : ((top_indices sims tk).filter
          (fun idx => decide (0 < sims.getD idx 0))).Pairwise
          (fun i j => lexLt sims j i) :=
        (top_indices_pairwise sims tk).sublist (List.filter_sublist _)
      refine hp.imp ?_
      intro i j hij
      rcases hij with hlt | ⟨heq, _⟩
      · exact le_of_lt hlt
      · exact le_of_eq heq
    · intro r hr
      rcases List.mem_map.mp hr with ⟨idx, hidx, rfl⟩
      exact of_decide_eq_true (List.mem_filter.mp hidx).2

/-- Witness for `search_vectors_ranked` at three integer-valued scores and
`top_k = 2`. -/
theorem search_vectors_ranked_witness :
    (0 : Int) < 2 ∧
    (((search_vectors [1, 3, 2] [] 2).length : Int) ≤ 2 ∧
     ((search_vectors [1, 3, 2] [] 2).map Result.score).Pairwise
       (fun a b => b ≤ a) ∧
     ∀ r ∈ search_vectors [1, 3, 2] [] 2, 0 < r.score) :=
  ⟨by decide, search_vectors_ranked [1, 3, 2] [] 2 (by decide)⟩

/-- Claim C8: applying `filter_results` with no facets set is the identity;
with facets set, the output is a subsequence of the input in the original
relative order, and every retained result satisfies each active facet
predicate (in particular, a result whose timestamp the parser rejects is
excluded whenever the year facet is active, since its extracted year is
`none`). -/
theorem facet_filter_spec (parse : List Char → Option Int)
    (results : List Result) (filters : Filters) :
    filter_results parse results ⟨none, none, none⟩ = results ∧
    (filter_results parse results filters).Sublist results ∧
    (filter_results parse results filters).all
      (facetOk parse filters) = true := by
  refine ⟨rfl, ?_, ?_⟩
  · exact ((filter_by_source_type_sublist _ _).trans
      (filter_by_channel_sublist _ _)).trans (filter_by_year_sublist _ _ _)
  · rw [List.all_eq_true]
    intro r hr
    unfold filter_results at hr
    obtain ⟨hr2, hst⟩ := mem_filter_by_source_type hr
    obtain ⟨hr1, hch⟩ := mem_filter_by_channel hr2
    obtain ⟨hr0, hyr⟩ := mem_filter_by_year hr1
    unfold facetOk
    rw [Bool.and_eq_true, Bool.and_eq_true]
    refine ⟨⟨?_, ?_⟩, ?_⟩
    · cases hy : filters.year with
      | none => rfl
      | some y => exact decide_eq_true (hyr y hy)
    · cases hc : filters.channel with
      | none => rfl
      | some c => exact decide_eq_true (hch c hc)
    · cases hs : filters.source_type with
      | none => rfl
      | some st => exact hst st hs

/-- Claim C10: whenever the channel facet is active, every result retained
by `filter_results` carries `discord_info`; results lacking it (in
particular markdown-sourced ones, whose channel extraction yields `None`)
are excluded. -/
theorem channel_facet_requires_discord (parse : List Char → Option Int)
    (results : List Result) (y : Option Int) (c : List Char)
    (st : Option (List Char)) :
    (filter_results parse results ⟨y, some c, st⟩).all
      (fun r => r.metadata.discord_info.isSome) = true := by
  rw [List.all_eq_true]
  intro r hr
  unfold filter_results at hr
  obtain ⟨hr2, _⟩ := mem_filter_by_source_type hr
  obtain ⟨hr1, hch⟩ := mem_filter_by_channel hr2
  have hc := hch c rfl
  unfold _get_channel_from_result at hc
  cases hd : r.metadata.discord_info with
  | none =>
    rw [hd] at hc
    exact Option.noConfusion hc
  | some d => simp [hd]

/-- Claim C9: over a 20-line file, a window-2 request at line 10 returns
lines 8-12, each carrying its absolute line number and right-stripped
content, with exactly line 10 flagged as the target; a window-2 request at
line 1 clamps to lines 1-3; and a request with `line_number ≤ 0` (and no
chunk id) is rejected with the invalid-locator error. -/
theorem get_context_window_spec (db : List Metadata) (sf : List Char)
    (lines : List (List Char)) (ln : Int)
    (h1 : sf ≠ []) (h2 : lines.length = 20) (h3 : ln ≤ 0) :
    get_context db [] sf 10 2 (some lines) = .context
      [⟨8, pyRstrip (lines.getD 7 []), false⟩,
       ⟨9, pyRstrip (lines.getD 8 []), false⟩,
       ⟨10, pyRstrip (lines.getD 9 []), true⟩,
       ⟨11, pyRstrip (lines.getD 10 []), false⟩,
       ⟨12, pyRstrip (lines.getD 11 []), false⟩] ∧
    get_context db [] sf 1 2 (some lines) = .context
      [⟨1, pyRstrip (lines.getD 0 []), true⟩,
       ⟨2, pyRstrip (lines.getD 1 []), false⟩,
       ⟨3, pyRstrip (lines.getD 2 []), false⟩] ∧
    get_context db [] sf ln 2 (some lines) = .invalidLocator := by
  refine ⟨?_, ?_, ?_⟩
  · unfold get_context
    rw [if_neg (by simp), if_neg (by push_neg; exact ⟨h1, by norm_num⟩)]
    simp only [h2]
    norm_num
    have hr : List.range (Int.toNat 5) = [0, 1, 2, 3, 4] := by rfl
    have h7 : Int.toNat 7 = 7 := rfl
    rw [hr, h7]
    simp only [List.map_cons, List.map_nil, CtxLine.mk.injEq]
    norm_num
  · unfold get_context
    rw [if_neg (by simp), if_neg (by push_neg; exact ⟨h1, by norm_num⟩)]
    simp only [h2]
    norm_num
    have hr : List.range (Int.toNat 3) = [0, 1, 2] := by rfl
    rw [hr]
    simp only [List.map_cons, List.map_nil, CtxLine.mk.injEq]
    norm_num
  · unfold get_context
    rw [if_neg (by simp), if_pos (Or.inr h3)]

/-- Witness for `get_context_window_spec` on a concrete 20-line file. -/
theorem get_context_window_spec_witness :
    (['f'] : List Char) ≠ [] ∧
    (List.replicate 20 (['z'] : List Char)).length = 20 ∧
    (0 : Int) ≤ 0 ∧
    (get_context [] [] ['f'] 10 2 (some (List.replicate 20 ['z'])) =
        .context
          [⟨8, pyRstrip ((List.replicate 20 ['z']).getD 7 []), false⟩,
           ⟨9, pyRstrip ((List.replicate 20 ['z']).getD 8 []), false⟩,
           ⟨10, pyRstrip ((List.replicate 20 ['z']).getD 9 []), true⟩,
           ⟨11, pyRstrip ((List.replicate 20 ['z']).getD 10 []), false⟩,
           ⟨12, pyRstrip ((List.replicate 20 ['z']).getD 11 []), false⟩] ∧
     get_context [] [] ['f'] 1 2 (some (List.replicate 20 ['z'])) =
        .context
          [⟨1, pyRstrip ((List.replicate 20 ['z']).getD 0 []), true⟩,
           ⟨2, pyRstrip ((List.replicate 20 ['z']).getD 1 []), false⟩,
           ⟨3, pyRstrip ((List.replicate 20 ['z']).getD 2 []), false⟩] ∧
     get_context [] [] ['f'] 0 2 (some (List.replicate 20 ['z'])) =
        .invalidLocator) :=
  ⟨by decide, by decide, by decide,
   get_context_window_spec [] ['f'] (List.replicate 20 ['z']) 0
     (by decide) (by decide) (by decide)⟩
